import Mathlib

/-!
# Polya master / worker: message framing, worker loop, master orchestration

Shallow embedding of `src/master.c` and `src/worker.c`.

* Bytes are natural numbers; a buffer is a `List Nat`.
* `polya.h` is not part of the sources at hand.  What the code needs from it
  (the size of a header and where the `size` field sits in it) is the
  parameter `Layout`.
* `size_t` is 64 bit (arithmetic modulo `SIZE_MOD`), `int` is 32 bit
  (largest value `INT_MAX`); overflow of a signed counter and a copy beyond an
  allocation are undefined behaviour, rendered as `Outcome.undefined`.
* One call of `read` transfers at most `MAX_RW_COUNT` bytes.
-/

namespace Polya

/-! ## Part 1. Message framing (`giveProblem`, `getResult`, the reads of `worker`) -/

/-- Largest value of a C `int`. -/
def INT_MAX : Nat := 2147483647

/-- Modulus of `size_t` arithmetic. -/
def SIZE_MOD : Nat := 18446744073709551616

/-- The most bytes one call of `read` transfers (Linux: `0x7ffff000`, whatever
count is asked for). -/
def MAX_RW_COUNT : Nat := 2147479552

/-- What the code uses of the header declarations of `polya.h`:
`headerSize` is `sizeof(struct problem)` (resp. `sizeof(struct result)`), and
`sizeField` reads the `size` member off the bytes of a header. The flexible
member `data` starts right after the header. -/
structure Layout where
  headerSize : Nat
  sizeField : List Nat → Nat

/-- A message as it lies in memory: the bytes of the header struct, then the
bytes of its `data` member. -/
structure Msg where
  hdr : List Nat
  data : List Nat
deriving DecidableEq, Repr

/-- All bytes of the object a `struct problem *` or `struct result *` points to. -/
def Msg.image (m : Msg) : List Nat := m.hdr ++ m.data

/-- One end of a pipe. `bytes` are queued in the pipe. `script` says how the
next calls of `read` behave, one entry a call: `none` makes the call return -1,
`some k` makes it deliver at most `k` bytes; once the script is used up every
call delivers what it is asked for, as far as bytes are queued and up to
`MAX_RW_COUNT`. -/
structure Chan where
  bytes : List Nat
  script : List (Option Nat)
deriving DecidableEq, Repr

/-- The system call `read(fd, buf, n)`: `none` is the return value -1, `some bs`
are the bytes stored at the start of `buf` (the return value is their number).
No call transfers more than `MAX_RW_COUNT` bytes. -/
def Chan.read (c : Chan) (n : Nat) : Option (List Nat) × Chan :=
  match c.script with
  | [] =>
      (some (c.bytes.take (min n MAX_RW_COUNT)),
       { bytes := c.bytes.drop (min n MAX_RW_COUNT), script := [] })
  | none :: s => (none, { bytes := c.bytes, script := s })
  | some k :: s =>
      (some (c.bytes.take (min (min k n) MAX_RW_COUNT)),
       { bytes := c.bytes.drop (min (min k n) MAX_RW_COUNT), script := s })

/-- The next `read(fd, buf, n)` on `c` delivers all `n` bytes it is asked for. -/
@[reducible]
def Chan.delivers (c : Chan) (n : Nat) : Prop :=
  (c.read n).1.map List.length = some n

/-- The system call `write(fd, buf, n)` on a pipe that takes all bytes. -/
def Chan.write (c : Chan) (bs : List Nat) : Chan :=
  { bytes := c.bytes ++ bs, script := c.script }

/-- Content of a block fresh from `malloc(n)`: unspecified bytes `junk 0 .. junk (n-1)`. -/
def uninit (junk : Nat → Nat) (n : Nat) : List Nat := (List.range n).map junk

/-- Content of a buffer after `read` was called on it: the bytes delivered
overwrite its start, the rest keeps what it held; a failed call leaves it as it is. -/
def readInto (buf : List Nat) (r : Option (List Nat)) : List Nat :=
  match r with
  | none => buf
  | some bs => bs ++ buf.drop bs.length

/-- What a decoder hands to the code after it: a message, or nothing defined
(the C code ran into undefined behaviour). There is no error value: `getResult`
always returns the pointer `res`, and the worker always goes on to the solver. -/
inductive Outcome where
  | msg (m : Msg)
  | undefined
deriving DecidableEq, Repr

/-- The loop
`int count = 0; while (count < dataLength) { dst->data[count] = *cur; cur++; count++; }`
of `getResult` (lines 44-49) and of `worker` (lines 84-89).
`remaining` is `dataLength - count`, so the loop test is `remaining ≠ 0`.
`count++` at `count = INT_MAX` overflows a signed `int`: no result. -/
def copyLoop (src : List Nat) : (remaining : Nat) → (count : Nat) → (dst : List Nat) →
    Option (List Nat)
  | 0, _, dst => some dst
  | r + 1, count, dst =>
      if INT_MAX < count + 1 then none
      else copyLoop src r (count + 1) (dst.set count (src.getD count 0))

/-- `giveProblem(prob, fd)` of master.c: `write(fd, prob, prob->size)`. -/
def giveProblem (L : Layout) (prob : Msg) (fd : Chan) : Chan :=
  fd.write (prob.image.take (L.sizeField prob.hdr % SIZE_MOD))

/-- The write of a result by the worker, `write(1, res, res->size)` (line 116). -/
def writeResult (L : Layout) (res : Msg) (fd : Chan) : Chan :=
  fd.write (res.image.take (L.sizeField res.hdr % SIZE_MOD))

/-- `getResult(fd)` of master.c. `junkH`, `junkR`, `junkD` are the unspecified
contents of the three blocks it allocates (`resultHeader`, `res`, `resultData`).
The return values of the two `read` calls are only compared with -1 to log. -/
def getResult (L : Layout) (junkH junkR junkD : Nat → Nat) (fd : Chan) : Outcome × Chan :=
  -- struct result *resultHeader = malloc(sizeof(struct result)); read(fd, resultHeader, ...)
  let r1 := fd.read L.headerSize
  let resultHeader := readInto (uninit junkH L.headerSize) r1.1
  -- struct result *res = malloc(resultHeader->size); memcpy(res, resultHeader, sizeof ...)
  let size := L.sizeField resultHeader % SIZE_MOD
  if size < L.headerSize then (Outcome.undefined, r1.2)
  else
    -- size_t dataLength = res->size - sizeof(struct result)
    let dataLength := (size + SIZE_MOD - L.headerSize) % SIZE_MOD
    -- char *resultData = malloc(dataLength); read(fd, resultData, dataLength)
    let r2 := r1.2.read dataLength
    let resultData := readInto (uninit junkD dataLength) r2.1
    match copyLoop resultData dataLength 0 (uninit junkR dataLength) with
    | none => (Outcome.undefined, r2.2)
    | some d => (Outcome.msg { hdr := resultHeader, data := d }, r2.2)

/-- Lines 60-90 of `worker`: the read of one problem from standard input.
`junkH`, `junkP`, `junkD` are the unspecified contents of `problemHeader`,
`prob` and `problemData`. A return value -1 of `read` is reported with `perror`
and the code goes on. -/
def readProblem (L : Layout) (junkH junkP junkD : Nat → Nat) (fd : Chan) : Outcome × Chan :=
  let r1 := fd.read L.headerSize
  let problemHeader := readInto (uninit junkH L.headerSize) r1.1
  -- prob = malloc(problemHeader->size); memcpy(prob, problemHeader, sizeof(struct problem))
  let size := L.sizeField problemHeader % SIZE_MOD
  if size < L.headerSize then (Outcome.undefined, r1.2)
  else
    -- size_t dataLength = prob->size - sizeof(struct problem); if (dataLength < 0) dataLength = 0;
    let dataLength0 := (size + SIZE_MOD - L.headerSize) % SIZE_MOD
    let dataLength := if dataLength0 < 0 then 0 else dataLength0
    let r2 := r1.2.read dataLength
    let problemData := readInto (uninit junkD dataLength) r2.1
    match copyLoop problemData dataLength 0 (uninit junkP dataLength) with
    | none => (Outcome.undefined, r2.2)
    | some d => (Outcome.msg { hdr := problemHeader, data := d }, r2.2)

/-- A pipe with nothing queued whose reads deliver all they are asked for. -/
def emptyChan : Chan := { bytes := [], script := [] }

/-- Value of a little-endian byte string. -/
def leValue : List Nat → Nat
  | [] => 0
  | b :: bs => b + 256 * leValue bs

/-- An instance of `Layout` to run the definitions on: a header of 16 bytes
that starts with the `size` member, 8 bytes in little-endian order (a struct
that begins with a `size_t` on x86-64). -/
def layout16 : Layout := { headerSize := 16, sizeField := fun h => leValue (h.take 8) }

/-- A header image for `layout16`: `size` in the first eight bytes, then eight
bytes `rest` for the other members. -/
def header16 (size : Nat) (rest : List Nat) : List Nat :=
  (List.range 8).map (fun i => size / 256 ^ i % 256) ++ rest

/-- A problem of 19 bytes for `layout16`: header and the payload 1, 2, 3. -/
def smallMsg : Msg := { hdr := header16 19 [7, 0, 1, 0, 0, 0, 0, 0], data := [1, 2, 3] }

/-- A message of 16 bytes for `layout16`: a header and no payload. -/
def emptyMsg : Msg := { hdr := header16 16 [7, 0, 1, 0, 0, 0, 0, 0], data := [] }

/-- Unspecified heap content that happens to read as a header of size 16 for `layout16`. -/
def junk16 : Nat → Nat := fun i => if i = 0 then 16 else 0

/-- A pipe whose next `read` fails with -1. -/
def failingChan : Chan := { bytes := [], script := [none] }

/-- A pipe that holds `smallMsg`; the first `read` delivers the 16 bytes asked
for, the second delivers one byte only. -/
def shortChan : Chan := { bytes := smallMsg.image, script := [some 16, some 1] }

/-- Content of the header buffer of a decoder after its first `read`, whatever
that call returned. -/
def headerBuffer (L : Layout) (junkH : Nat → Nat) (fd : Chan) : List Nat :=
  readInto (uninit junkH L.headerSize) (fd.read L.headerSize).1

/-- The payload length a decoder computes from the header buffer (for a `size`
that is at least the header size). -/
def payloadLength (L : Layout) (junkH : Nat → Nat) (fd : Chan) : Nat :=
  L.sizeField (headerBuffer L junkH fd) % SIZE_MOD - L.headerSize

/-- Content of the payload buffer of a decoder after its second `read`,
whatever that call returned. -/
def payloadBuffer (L : Layout) (junkH junkD : Nat → Nat) (fd : Chan) : List Nat :=
  (readInto (uninit junkD (payloadLength L junkH fd))
    ((fd.read L.headerSize).2.read (payloadLength L junkH fd)).1).take (payloadLength L junkH fd)

/-! ## Part 2. The worker process (`worker.c`)

From here on a pipe is the queue of the messages written to it and not yet
read (the bytes of a message are the subject of part 1). -/

/-- The members of `struct problem` the code uses. -/
structure Problem where
  id : Nat
  type : Nat
  size : Nat
  data : List Nat
deriving DecidableEq, Repr

/-- The members of `struct result` the code uses. -/
structure Result where
  id : Nat
  failed : Nat
  size : Nat
  data : List Nat
deriving DecidableEq, Repr

/-- The signals of the protocol. -/
inductive Signal where
  | SIGHUP
  | SIGTERM
  | SIGCONT
  | SIGSTOP
deriving DecidableEq, Repr

/-- How the kernel sees a process. -/
inductive Status where
  | running
  | stopped
  | exited (code : Nat)
deriving DecidableEq, Repr

/-- Places in `worker()` between which a signal handler may run. -/
inductive WPc where
  | start        -- line 42: install the handlers, stop (line 47)
  | loopTop      -- line 52: if (terminate)
  | checkRun     -- line 57: if (readAndSolve)
  | readProb     -- lines 61-90: read the problem
  | callSolver   -- lines 93-94: canceledP = 0
  | solving      -- line 95: inside solvers[type].solve(prob, &canceledP)
  | resolve      -- lines 98, 102, 104, 115: branch on res, set cancel
  | writeFailed  -- lines 105-111
  | writeOk      -- lines 116-118
  | testCancel   -- lines 122-126: if (!cancel)
  | selfStop     -- lines 127-128: free(prob); kill(getpid(), SIGSTOP)
  | line131      -- line 131: if (res != NULL) cancel = 0
  | checkCancel  -- line 134: if (cancel)
  | cancelWrite  -- lines 143-153
deriving DecidableEq, Repr

/-- What a worker did, in order: a problem read, a result written, a stop
(`kill(getpid(), SIGSTOP)`). Kept beside the state to state properties of runs. -/
inductive WEvent where
  | got (p : Problem)
  | put (r : Result)
  | stop
deriving DecidableEq, Repr

/-- State of a worker process: the three flags of worker.c, the locals
`canceledP`, `prob` (with whether it was freed) and `res` (`none` is `NULL`),
its standard input and output, and how the kernel sees it. -/
structure WorkerSt where
  pc : WPc
  status : Status
  readAndSolve : Nat
  cancel : Nat
  terminate : Nat
  canceledP : Nat
  prob : Option Problem
  probFreed : Bool
  res : Option Result
  stdin : List Problem
  stdout : List Result
  log : List WEvent
deriving DecidableEq, Repr

/-- What the worker calls into: the table `solvers` (by problem type; the
second argument of a solver is the value it finds when it polls the flag whose
address it was given, `none` is a `NULL` return) and `sizeof(struct result)`. -/
structure WorkerEnv where
  solvers : Nat → Problem → Nat → Option Result
  resultSize : Nat

/-- `sighupHandler`. -/
def sighupHandler (w : WorkerSt) : WorkerSt := { w with cancel := 1 }

/-- `sigtermHandler`. -/
def sigtermHandler (w : WorkerSt) : WorkerSt := { w with terminate := 1 }

/-- `sigcontHandler`. -/
def sigcontHandler (w : WorkerSt) : WorkerSt := { w with readAndSolve := 1 }

/-- Arrival of a signal at a worker whose handlers are installed. A handler
only sets a flag, and a stopped process reads no flag, so a signal that waits
for a stopped process to be continued is recorded at once. `SIGCONT` makes a
stopped process run again; `SIGSTOP` stops it. -/
def deliver (sig : Signal) (w : WorkerSt) : WorkerSt :=
  match w.status with
  | Status.exited _ => w
  | _ =>
    match sig with
    | Signal.SIGHUP => sighupHandler w
    | Signal.SIGTERM => sigtermHandler w
    | Signal.SIGCONT => sigcontHandler { w with status := Status.running }
    | Signal.SIGSTOP => { w with status := Status.stopped }

/-- The flag a solver polls: `worker` passes `&canceledP` (line 95). -/
def solverFlag (w : WorkerSt) : Nat := w.canceledP

/-- The failed result built at lines 105-108 and 143-146. -/
def failedResult (env : WorkerEnv) (p : Problem) : Result :=
  { id := p.id, failed := 1, size := env.resultSize, data := [] }

/-- One step of `worker()`: the code from one place of `WPc` to the next.
`none`: the process does not run (stopped, exited, blocked in `read` on an
empty pipe), or the step has no defined behaviour: it uses `prob` before any
problem was read, or after `prob` was freed at line 127 (lines 146 and 152
then read and free a freed block). -/
def WorkerSt.step (env : WorkerEnv) (w : WorkerSt) : Option WorkerSt :=
  if w.status ≠ Status.running then none
  else
    match w.pc with
    | WPc.start =>
        some { w with pc := WPc.loopTop, status := Status.stopped, log := w.log ++ [WEvent.stop] }
    | WPc.loopTop =>
        if w.terminate ≠ 0 then some { w with terminate := 0, status := Status.exited 0 }
        else some { w with pc := WPc.checkRun }
    | WPc.checkRun =>
        if w.readAndSolve ≠ 0 then some { w with readAndSolve := 0, pc := WPc.readProb }
        else some { w with pc := WPc.checkCancel }
    | WPc.readProb =>
        match w.stdin with
        | [] => none
        | p :: rest =>
            some { w with prob := some p, probFreed := false, stdin := rest,
                          pc := WPc.callSolver, log := w.log ++ [WEvent.got p] }
    | WPc.callSolver => some { w with canceledP := 0, pc := WPc.solving }
    | WPc.solving =>
        match w.prob with
        | none => none
        | some p => some { w with res := env.solvers p.type p (solverFlag w), pc := WPc.resolve }
    | WPc.resolve =>
        match w.res with
        | none => some { w with cancel := 1, pc := WPc.testCancel }
        | some r =>
            if r.failed ≠ 0 then some { w with cancel := 0, pc := WPc.writeFailed }
            else some { w with cancel := 0, pc := WPc.writeOk }
    | WPc.writeFailed =>
        match w.prob with
        | none => none
        | some p =>
            some { w with res := some (failedResult env p),
                          stdout := w.stdout ++ [failedResult env p],
                          pc := WPc.testCancel,
                          log := w.log ++ [WEvent.put (failedResult env p)] }
    | WPc.writeOk =>
        match w.res with
        | none => none
        | some r =>
            some { w with stdout := w.stdout ++ [r], pc := WPc.testCancel,
                          log := w.log ++ [WEvent.put r] }
    | WPc.testCancel =>
        if w.cancel = 0 then some { w with pc := WPc.selfStop }
        else some { w with pc := WPc.line131 }
    | WPc.selfStop =>
        some { w with probFreed := true, status := Status.stopped, pc := WPc.line131,
                      log := w.log ++ [WEvent.stop] }
    | WPc.line131 =>
        some { w with cancel := if w.res.isSome then 0 else w.cancel, pc := WPc.checkCancel }
    | WPc.checkCancel =>
        if w.cancel ≠ 0 then some { w with cancel := 0, pc := WPc.cancelWrite }
        else some { w with pc := WPc.loopTop }
    | WPc.cancelWrite =>
        match w.prob with
        | none => none
        | some p =>
            if w.probFreed then none
            else
              some { w with stdout := w.stdout ++ [failedResult env p], probFreed := true,
                            status := Status.stopped, pc := WPc.loopTop,
                            log := w.log ++ [WEvent.put (failedResult env p), WEvent.stop] }

/-- A worker process right after `exec`. -/
def WorkerSt.init : WorkerSt :=
  { pc := WPc.start, status := Status.running, readAndSolve := 0, cancel := 0, terminate := 0,
    canceledP := 0, prob := none, probFreed := false, res := none,
    stdin := [], stdout := [], log := [] }

/-- What happens to a worker, seen from the worker: it executes its next step,
a signal arrives, or the master writes a problem to its standard input. -/
inductive WAction where
  | step
  | sig (s : Signal)
  | feed (p : Problem)
deriving DecidableEq, Repr

/-- Effect of one action; `none` when the worker is asked to step and cannot. -/
def WorkerSt.act (env : WorkerEnv) (w : WorkerSt) : WAction → Option WorkerSt
  | WAction.step => w.step env
  | WAction.sig s => some (deliver s w)
  | WAction.feed p => some { w with stdin := w.stdin ++ [p] }

/-- Run of a worker under a schedule of actions. -/
def WorkerSt.run (env : WorkerEnv) : WorkerSt → List WAction → Option WorkerSt
  | w, [] => some w
  | w, a :: as =>
      match w.act env a with
      | none => none
      | some w1 => WorkerSt.run env w1 as

/-- The schedule of `n` steps in a row. -/
def steps (n : Nat) : List WAction := List.replicate n WAction.step

/-- A solver that polls its flag: it gives up (`NULL`) when it finds the flag
set, and otherwise returns a result with the payload 42. -/
def pollingSolver (p : Problem) (flag : Nat) : Option Result :=
  if flag ≠ 0 then none else some { id := p.id, failed := 0, size := 17, data := [42] }

/-- An environment to run the worker in: every type is solved by `pollingSolver`. -/
def demoEnv : WorkerEnv := { solvers := fun _ => pollingSolver, resultSize := 16 }

/-- Two problems to run the definitions on. -/
def problem1 : Problem := { id := 1, type := 0, size := 16, data := [] }
def problem2 : Problem := { id := 2, type := 0, size := 16, data := [] }

/-- The rule of the specification for what a worker does, read off its log:
a result is written only for the problem read last and not yet answered
(same `id`), at most one for it, and the worker stops only with no problem
left unanswered. The first argument is the problem read and not yet answered. -/
def oneOutcome : Option Problem → List WEvent → Bool
  | outstanding, [] => outstanding.isNone
  | none, WEvent.got p :: es => oneOutcome (some p) es
  | some _, WEvent.got _ :: _ => false
  | some p, WEvent.put r :: es => r.id == p.id && oneOutcome none es
  | none, WEvent.put _ :: _ => false
  | none, WEvent.stop :: es => oneOutcome none es
  | some _, WEvent.stop :: _ => false

/-- Schedule up to the call of the solver: the worker starts and stops, is
continued, finds `problem1` on its input, and runs until it is inside the solver. -/
def toSolving : List WAction :=
  [WAction.step, WAction.sig Signal.SIGCONT, WAction.feed problem1] ++ steps 4

/-- Schedule up to the write of the solver's result: as `toSolving`, then the
solver returns, `cancel` is cleared (line 115) and the result is written (line 116). -/
def toWritten : List WAction := toSolving ++ steps 3

/-- The hang-up signal arrives right after the result was written, before the
test of line 126; it arrives once more while the worker loops. -/
def lateCancelTwice : List WAction :=
  toWritten ++ [WAction.sig Signal.SIGHUP] ++ steps 5 ++ [WAction.sig Signal.SIGHUP] ++ steps 2

/-- The hang-up signal arrives once, right after the result was written; the
worker then takes three more steps (lines 126, 131, 134). -/
def lateCancelOnce : List WAction :=
  toWritten ++ [WAction.sig Signal.SIGHUP] ++ steps 3

/-! ## Part 3. The master process (`master.c`)

`master()` is a sequential program that calls out to its surroundings: the
problem source (`get_problem_variant`), the judge (`post_result`), and the
kernel (`waitpid`, `wait`, `read`). It is rendered as a machine that sits at a
call (`MPc`) and, given what the call returns (`Resp`), runs on to the next
call, reporting what it did on the way (`Event`). -/

/-- The worker states of `polya.h`, by name. -/
inductive WorkerState where
  | WORKER_STARTED
  | WORKER_IDLE
  | WORKER_CONTINUED
  | WORKER_RUNNING
  | WORKER_STOPPED
  | WORKER_EXITED
  | WORKER_ABORTED
deriving DecidableEq, Repr

open WorkerState

/-- `struct worker` of master.c. The pipes `fd1` and `fd2` of worker `i` are
named by the index `i`; `problemToSolve` is unset (`none`) before the first
assignment. -/
structure Worker where
  id : Nat
  pid : Int
  state : WorkerState
  problemToSolve : Option Problem
deriving DecidableEq, Repr

/-- The status `wait` stores in `child_status`: the child returned from `main`
or called `exit` with a code, or it was killed by a signal. -/
inductive ChildStatus where
  | exited (code : Nat)
  | signaled (sig : Nat)
deriving DecidableEq, Repr

/-- The test `WIFEXITED(child_status)`. -/
def WIFEXITED : ChildStatus → Bool
  | ChildStatus.exited _ => true
  | ChildStatus.signaled _ => false

def EXIT_SUCCESS : Nat := 0
def EXIT_FAILURE : Nat := 1

/-- The calls at which `master()` waits for an answer. -/
inductive MPc where
  | initWait (idleCounter : Nat)                   -- line 123: waitpid(-1, NULL, WUNTRACED)
  | getVariant (i variant : Nat)                   -- line 147: get_problem_variant(workers, variant)
  | waitCont (i variant : Nat) (p : Problem)       -- line 161: waitpid(arr[i].pid, NULL, WCONTINUED)
  | arbWait                                        -- line 179: waitpid(-1, NULL, WUNTRACED)
  | arbRead (workerIndex : Nat)                    -- line 195: getResult(arr[workerIndex].fd1[0])
  | arbJudge (workerIndex : Nat) (res : Result)    -- line 199: post_result(res, ...)
  | cancelWait (i : Nat)                           -- line 214: waitpid(arr[i].pid, NULL, WUNTRACED)
  | reap (i : Nat)                                 -- line 239: wait(&child_status)
  | exited (code : Nat)                            -- after exit(code)
  | fault                                          -- arr[workerIndex] with workerIndex never set
deriving DecidableEq, Repr

/-- What a call returns. -/
inductive Resp where
  | pid (wpid : Int)                         -- waitpid
  | variant (p : Option Problem)             -- get_problem_variant (`none` is `NULL`)
  | result (res : Result)                    -- getResult
  | verdict (postResult : Int)               -- post_result
  | child (wpid : Int) (st : ChildStatus)    -- wait
deriving DecidableEq, Repr

/-- What the master does to its surroundings, in order. -/
inductive Event where
  | sf_start
  | sf_end
  | sf_change_state (pid : Int) (oldstate newstate : WorkerState)
  | sf_send_problem (pid : Int) (p : Problem)
  | sf_recv_result (pid : Int) (res : Result)
  | sf_cancel (pid : Int)
  | kill (pid : Int) (sig : Signal)
  | giveProblem (i : Nat) (p : Problem)
  | post_result (res : Result) (p : Option Problem)
  | close (i : Nat)
  | wait (wpid : Int) (st : ChildStatus)
  | exit (code : Nat)
deriving DecidableEq, Repr

/-- State of `master()`: the array `arr` and the call it is at. `workers` is
the length of `arr`. -/
structure Master where
  arr : List Worker
  pc : MPc
deriving DecidableEq, Repr

/-- The assignment `arr[i].state = s`. -/
def setState : List Worker → Nat → WorkerState → List Worker
  | [], _, _ => []
  | w :: ws, 0, s => { w with state := s } :: ws
  | w :: ws, i + 1, s => w :: setState ws i s

/-- The assignment `arr[i].problemToSolve = p`. -/
def setProblem : List Worker → Nat → Problem → List Worker
  | [], _, _ => []
  | w :: ws, 0, p => { w with problemToSolve := some p } :: ws
  | w :: ws, i + 1, p => w :: setProblem ws i p

/-- The value `arr[i].pid` (0 beyond the array; not used there). -/
def pidOf (arr : List Worker) (i : Nat) : Int :=
  match arr.get? i with
  | some w => w.pid
  | none => 0

/-- The loop `for (i...) if (arr[i].pid == wpid) arr[i].state = s;` (lines 125-130,
242-247, 252-257). -/
def markPid (arr : List Worker) (wpid : Int) (s : WorkerState) : List Worker :=
  arr.map (fun w => if w.pid = wpid then { w with state := s } else w)

/-- The calls `sf_change_state(arr[i].pid, old, s)` made in that loop. -/
def markEvents (arr : List Worker) (wpid : Int) (old s : WorkerState) : List Event :=
  (arr.filter (fun w => w.pid = wpid)).map (fun w => Event.sf_change_state w.pid old s)

/-- The loop `for (i...) if (arr[i].pid == wpid) workerIndex = i;` (lines 182-185),
started at index `i` with `workerIndex` holding `acc` (`none`: never assigned). -/
def findWorkerFrom : List Worker → Int → Nat → Option Nat → Option Nat
  | [], _, _, acc => acc
  | w :: ws, wpid, i, acc => findWorkerFrom ws wpid (i + 1) (if w.pid = wpid then some i else acc)

/-- First index at or after `i` of a worker whose state is not `WORKER_IDLE`
(`ws` is `arr` from index `i` on): where the loop of lines 208-219 next acts. -/
def nextNotIdle : List Worker → Nat → Option Nat
  | [], _ => none
  | w :: ws, i => if w.state ≠ WORKER_IDLE then some i else nextNotIdle ws (i + 1)

/-- Lines 223-234 and the entry of the loop of line 238: close the pipe ends,
send `SIGTERM` and `SIGCONT` to every worker, then wait for the first exit;
without workers, lines 261-262 follow at once. -/
def Master.shutdown (m : Master) : Master × List Event :=
  let closes := (List.range m.arr.length).map Event.close
  let kills := (m.arr.map (fun w =>
    [Event.kill w.pid Signal.SIGTERM, Event.kill w.pid Signal.SIGCONT])).flatten
  if 0 < m.arr.length then ({ m with pc := MPc.reap 0 }, closes ++ kills)
  else ({ m with pc := MPc.exited EXIT_SUCCESS },
        closes ++ kills ++ [Event.sf_end, Event.exit EXIT_SUCCESS])

/-- The loop of lines 145-171 at index `i` with `moreProblems` still 1: the
next call of `get_problem_variant`, or past the loop the first `waitpid` of the
arbitration (line 175 finds `moreProblems` set). -/
def Master.assignFrom (m : Master) (i variant : Nat) : Master × List Event :=
  if i < m.arr.length then ({ m with pc := MPc.getVariant i variant }, [])
  else ({ m with pc := MPc.arbWait }, [])

/-- The loop of lines 208-219 from index `i`: up to the `waitpid` for the next
worker that is not idle, or past the loop into the next round (line 142 finds
`moreProblems` set, and `variant` starts again at 0). -/
def Master.cancelFrom (m : Master) (i : Nat) : Master × List Event :=
  match nextNotIdle (m.arr.drop i) i with
  | none => m.assignFrom 0 0
  | some j =>
      ({ arr := setState m.arr j WORKER_STOPPED, pc := MPc.cancelWait j },
       [Event.sf_cancel (pidOf m.arr j), Event.kill (pidOf m.arr j) Signal.SIGHUP,
        Event.sf_change_state (pidOf m.arr j) WORKER_RUNNING WORKER_STOPPED])

/-- `master()` from the return of the call it is at to the next call. An
answer of the wrong kind leaves the master at its call. -/
def Master.step (m : Master) (r : Resp) : Master × List Event :=
  match m.pc, r with
  | MPc.initWait idleCounter, Resp.pid wpid =>
      -- lines 125-132
      let m1 : Master := { m with arr := markPid m.arr wpid WORKER_IDLE }
      let evs := markEvents m.arr wpid WORKER_STARTED WORKER_IDLE
      if idleCounter + 1 < m.arr.length then ({ m1 with pc := MPc.initWait (idleCounter + 1) }, evs)
      else ((m1.assignFrom 0 0).1, evs ++ (m1.assignFrom 0 0).2)
  | MPc.getVariant _ _, Resp.variant none =>
      -- line 149: moreProblems = 0; the rest of the loop and line 175 do nothing
      m.shutdown
  | MPc.getVariant i variant, Resp.variant (some p) =>
      -- lines 152-158
      ({ arr := setState m.arr i WORKER_CONTINUED, pc := MPc.waitCont i (variant + 1) p },
       [Event.kill (pidOf m.arr i) Signal.SIGCONT,
        Event.sf_change_state (pidOf m.arr i) WORKER_IDLE WORKER_CONTINUED])
  | MPc.waitCont i variant p, Resp.pid _ =>
      -- lines 162-168
      let m1 : Master :=
        { m with arr := setProblem (setState m.arr i WORKER_RUNNING) i p }
      ((m1.assignFrom (i + 1) variant).1,
       [Event.sf_change_state (pidOf m.arr i) WORKER_CONTINUED WORKER_RUNNING,
        Event.sf_send_problem (pidOf m.arr i) p, Event.giveProblem i p]
        ++ (m1.assignFrom (i + 1) variant).2)
  | MPc.arbWait, Resp.pid wpid =>
      -- lines 182-191
      match findWorkerFrom m.arr wpid 0 none with
      | none => ({ m with pc := MPc.fault }, [])
      | some workerIndex =>
          ({ arr := setState m.arr workerIndex WORKER_IDLE, pc := MPc.arbRead workerIndex },
           [Event.sf_change_state (pidOf m.arr workerIndex) WORKER_RUNNING WORKER_STOPPED,
            Event.sf_change_state (pidOf m.arr workerIndex) WORKER_STOPPED WORKER_IDLE])
  | MPc.arbRead workerIndex, Resp.result res =>
      -- lines 195-199
      ({ m with pc := MPc.arbJudge workerIndex res },
       [Event.sf_recv_result (pidOf m.arr workerIndex) res,
        Event.post_result res ((m.arr.get? workerIndex).bind (fun w => w.problemToSolve))])
  | MPc.arbJudge _ _, Resp.verdict postResult =>
      -- lines 201-205, then line 178 or line 208
      if postResult = 0 then m.cancelFrom 0
      else ({ m with pc := MPc.arbWait }, [])
  | MPc.cancelWait i, Resp.pid _ =>
      -- lines 215-217
      let m1 : Master := { m with arr := setState m.arr i WORKER_IDLE }
      ((m1.cancelFrom (i + 1)).1,
       Event.sf_change_state (pidOf m.arr i) WORKER_STOPPED WORKER_IDLE :: (m1.cancelFrom (i + 1)).2)
  | MPc.reap i, Resp.child wpid st =>
      -- lines 241-258
      if !WIFEXITED st then
        ({ arr := markPid m.arr wpid WORKER_ABORTED, pc := MPc.exited EXIT_FAILURE },
         Event.wait wpid st :: markEvents m.arr wpid WORKER_IDLE WORKER_ABORTED
           ++ [Event.sf_end, Event.exit EXIT_FAILURE])
      else if i + 1 < m.arr.length then
        ({ arr := markPid m.arr wpid WORKER_EXITED, pc := MPc.reap (i + 1) },
         Event.wait wpid st :: markEvents m.arr wpid WORKER_IDLE WORKER_EXITED)
      else
        ({ arr := markPid m.arr wpid WORKER_EXITED, pc := MPc.exited EXIT_SUCCESS },
         Event.wait wpid st :: markEvents m.arr wpid WORKER_IDLE WORKER_EXITED
           ++ [Event.sf_end, Event.exit EXIT_SUCCESS])
  | _, _ => (m, [])

/-- The array after the loop of lines 80-116: worker `i` has the process id
`pids[i]` that `fork` returned and the state `WORKER_STARTED`. -/
def startArr : List Int → Nat → List Worker
  | [], _ => []
  | pid :: pids, i =>
      { id := i, pid := pid, state := WORKER_STARTED, problemToSolve := none }
        :: startArr pids (i + 1)

/-- `master(workers)` up to its first call of `waitpid` (line 123); `pids` are
the process ids of the `workers` children. -/
def Master.start (pids : List Int) : Master × List Event :=
  let m : Master := { arr := startArr pids 0, pc := MPc.initWait 0 }
  if 0 < pids.length then (m, [Event.sf_start])
  else ((m.assignFrom 0 0).1, Event.sf_start :: (m.assignFrom 0 0).2)

/-- Run of the master over the answers `rs`, with all it did. -/
def Master.run : Master × List Event → List Resp → Master × List Event
  | me, [] => me
  | me, r :: rs => Master.run ((me.1.step r).1, me.2 ++ (me.1.step r).2) rs

/-- The states recorded in `arr`, by worker index. -/
def Master.states (m : Master) : List WorkerState := m.arr.map (fun w => w.state)

/-- Every worker at index `i` or beyond is recorded as `WORKER_IDLE`. -/
def idleFrom (arr : List Worker) (i : Nat) : Prop :=
  ∀ (j : Nat) (w : Worker), i ≤ j → arr[j]? = some w → w.state = WORKER_IDLE

/-- Every worker below index `i` is recorded as `WORKER_IDLE`. -/
def idleBelow (arr : List Worker) (i : Nat) : Prop :=
  ∀ (j : Nat) (w : Worker), j < i → arr[j]? = some w → w.state = WORKER_IDLE

/-- What holds of the master at each call once the start-up loop is over, for
`n` workers: in the assignment loop the workers not yet reached are idle, in
the cancellation loop the workers already passed are idle. -/
def MasterInv (n : Nat) (m : Master) : Prop :=
  m.arr.length = n ∧
  match m.pc with
  | MPc.initWait _ => False
  | MPc.getVariant i _ => i < n ∧ idleFrom m.arr i
  | MPc.waitCont i _ _ => idleFrom m.arr (i + 1)
  | MPc.cancelWait i => idleBelow m.arr i
  | _ => True

/-- Whether an event is a return of `wait`. -/
def Event.isWait : Event → Bool
  | Event.wait _ _ => true
  | _ => false

/-- Whether an event is the receipt of a result. -/
def Event.isRecv : Event → Bool
  | Event.sf_recv_result _ _ => true
  | _ => false

/-- Answers for two workers (process ids 100 and 101): both report their first
stop, the problem source hands out `problem1` for worker 0 and then reports
that nothing is left. -/
def exhaustedMidRound : List Resp :=
  [Resp.pid 100, Resp.pid 101, Resp.variant (some problem1), Resp.pid 100, Resp.variant none]

/-- Answers for two workers: both report their first stop, the problem source
has nothing, and the first `wait` reports process 100 as killed by signal 9. -/
def firstExitUnclean : List Resp :=
  [Resp.pid 100, Resp.pid 101, Resp.variant none, Resp.child 100 (ChildStatus.signaled 9)]

/-- Answers for one worker: it reports its first stop, the problem source has
nothing, and `wait` reports that the worker called `exit(1)`. -/
def exitCodeOne : List Resp :=
  [Resp.pid 100, Resp.variant none, Resp.child 100 (ChildStatus.exited 1)]

/-! ## Part 4. Master and workers together

The master of part 3 and one worker of part 2 for each entry of `arr`, joined
by what the kernel does between them: signals, the two pipes of each worker,
and the reports of `waitpid` and `wait`. -/

/-- A child process of the master as the kernel keeps it: the worker, whether
it has stopped (resp. was continued) since `waitpid` last reported that, and
whether `wait` has reported its exit. -/
structure Proc where
  w : WorkerSt
  stopPending : Bool
  contPending : Bool
  reaped : Bool
deriving DecidableEq, Repr

/-- The whole system: master, children (child `i` belongs to `arr[i]`), the
problems `get_problem_variant` has still to hand out, and all the master did. -/
structure Sys where
  master : Master
  procs : List Proc
  gens : List Problem
  events : List Event
deriving DecidableEq, Repr

/-- The collaborators: what the workers call (`solvers`), and `post_result`. -/
structure SysEnv where
  worker : WorkerEnv
  post_result : Result → Option Problem → Int

/-- Replace child `i`. -/
def setProc : List Proc → Nat → Proc → List Proc
  | [], _, _ => []
  | _ :: ps, 0, q => q :: ps
  | p :: ps, i + 1, q => p :: setProc ps i q

/-- A signal sent with `kill` reaches a child: the worker sees it as in part 2,
and a `SIGCONT` for a stopped child is a continuation `waitpid` can report. -/
def Proc.signal (sig : Signal) (p : Proc) : Proc :=
  { p with w := deliver sig p.w,
           contPending := p.contPending ||
             (sig = Signal.SIGCONT && p.w.status = Status.stopped) }

/-- Effect of one event of the master on the children: `kill` signals every
child with that process id, `giveProblem` appends to the input pipe of worker `i`. -/
def applyEvent (arr : List Worker) (procs : List Proc) : Event → List Proc
  | Event.kill pid sig =>
      (List.zip arr procs).map (fun wp => if wp.1.pid = pid then wp.2.signal sig else wp.2)
  | Event.giveProblem i p =>
      match procs.get? i with
      | some q => setProc procs i { q with w := { q.w with stdin := q.w.stdin ++ [p] } }
      | none => procs
  | _ => procs

/-- Effect of a list of events, in order. -/
def applyEvents (arr : List Worker) : List Proc → List Event → List Proc
  | procs, [] => procs
  | procs, e :: es => applyEvents arr (applyEvent arr procs e) es

/-- What the call the master is at returns, if it returns now, and the system
with the answer taken. `k` is the child the kernel picks for a `waitpid(-1, ...)`
or a `wait`. `none`: the call blocks.
* `waitpid(-1, NULL, WUNTRACED)` and `waitpid(pid, NULL, WUNTRACED)` return for
  a child with a stop not yet reported;
* `waitpid(pid, NULL, WCONTINUED)` returns for a continuation not yet reported;
* `getResult` returns the first result in the pipe of that worker;
* `get_problem_variant` returns the next problem, or `NULL` when none is left;
* `wait` returns for a child that has exited and was not yet reported. -/
def Sys.respond (env : SysEnv) (s : Sys) (k : Nat) : Option (Resp × Sys) :=
  match s.master.pc with
  | MPc.initWait _ | MPc.arbWait =>
      match s.procs.get? k with
      | some q =>
          if q.stopPending then
            some (Resp.pid (pidOf s.master.arr k),
                  { s with procs := setProc s.procs k { q with stopPending := false } })
          else none
      | none => none
  | MPc.getVariant _ _ =>
      match s.gens with
      | [] => some (Resp.variant none, s)
      | p :: rest => some (Resp.variant (some p), { s with gens := rest })
  | MPc.waitCont i _ _ =>
      match s.procs.get? i with
      | some q =>
          if q.contPending then
            some (Resp.pid (pidOf s.master.arr i),
                  { s with procs := setProc s.procs i { q with contPending := false } })
          else none
      | none => none
  | MPc.arbRead i =>
      match s.procs.get? i with
      | some q =>
          match q.w.stdout with
          | [] => none
          | res :: rest =>
              some (Resp.result res,
                    { s with procs := setProc s.procs i { q with w := { q.w with stdout := rest } } })
      | none => none
  | MPc.arbJudge i res =>
      some (Resp.verdict
        (env.post_result res ((s.master.arr.get? i).bind (fun w => w.problemToSolve))), s)
  | MPc.cancelWait i =>
      match s.procs.get? i with
      | some q =>
          if q.stopPending then
            some (Resp.pid (pidOf s.master.arr i),
                  { s with procs := setProc s.procs i { q with stopPending := false } })
          else none
      | none => none
  | MPc.reap _ =>
      match s.procs.get? k with
      | some q =>
          match q.w.status with
          | Status.exited code =>
              if q.reaped then none
              else some (Resp.child (pidOf s.master.arr k) (ChildStatus.exited code),
                         { s with procs := setProc s.procs k { q with reaped := true } })
          | _ => none
      | none => none
  | MPc.exited _ => none
  | MPc.fault => none

/-- Who moves next: the master (its call returns, for child `k` where the
kernel has a choice), or worker `i`. -/
inductive Choice where
  | master (k : Nat)
  | worker (i : Nat)
deriving DecidableEq, Repr

/-- One move of the system; `none` when the chosen process cannot move. -/
def Sys.step (env : SysEnv) (s : Sys) : Choice → Option Sys
  | Choice.master k =>
      match s.respond env k with
      | none => none
      | some (r, s1) =>
          some { master := (s1.master.step r).1,
                 procs := applyEvents s1.master.arr s1.procs (s1.master.step r).2,
                 gens := s1.gens,
                 events := s1.events ++ (s1.master.step r).2 }
  | Choice.worker i =>
      match s.procs.get? i with
      | none => none
      | some q =>
          match q.w.step env.worker with
          | none => none
          | some w1 =>
              let q1 : Proc :=
                { q with w := w1,
                         stopPending := q.stopPending ||
                           (q.w.status = Status.running && w1.status = Status.stopped) }
              some { s with procs := setProc s.procs i q1 }

/-- Run of the system under a schedule; `none` if some chosen move is not possible. -/
def Sys.run (env : SysEnv) : Sys → List Choice → Option Sys
  | s, [] => some s
  | s, c :: cs =>
      match s.step env c with
      | none => none
      | some s1 => Sys.run env s1 cs

/-- The system when `master(workers)` reaches its first `waitpid`: `workers` is
the length of `pids`, every child has just been started, `problems` is what
the problem source will hand out. -/
def Sys.init (pids : List Int) (problems : List Problem) : Sys :=
  { master := (Master.start pids).1,
    procs := pids.map (fun _ =>
      { w := WorkerSt.init, stopPending := false, contPending := false, reaped := false }),
    gens := problems,
    events := (Master.start pids).2 }

/-- The master `n` times in a row, each time for child `k`. -/
def masterMoves (n k : Nat) : List Choice := List.replicate n (Choice.master k)

/-- Worker `i` for `n` steps in a row. -/
def workerMoves (n i : Nat) : List Choice := List.replicate n (Choice.worker i)

/-- Whether an event hands a problem to a worker. -/
def Event.isGive : Event → Bool
  | Event.giveProblem _ _ => true
  | _ => false

/-- Whether an event is a cancellation. -/
def Event.isCancel : Event → Bool
  | Event.sf_cancel _ => true
  | _ => false

/-- Three variants for scenario A. -/
def variant1 : Problem := { id := 1, type := 0, size := 16, data := [] }
def variant2 : Problem := { id := 2, type := 0, size := 16, data := [] }
def variant3 : Problem := { id := 3, type := 0, size := 16, data := [] }

/-- Scenario A: the judge rejects the result for the first variant and accepts
the result for the second. -/
def envA : SysEnv :=
  { worker := demoEnv, post_result := fun res _ => if res.id = 2 then 0 else 1 }

/-- Scenario A: one worker (process id 100), three variants. -/
def sysA : Sys := Sys.init [100] [variant1, variant2, variant3]

/-- Scenario A, as far as it goes: the worker starts and stops, the master
sees the stop, gets variant 1, continues the worker and gives it the problem;
the worker solves it, writes its result and stops; the master sees the stop,
reads the result and has it judged. -/
def scheduleA : List Choice :=
  workerMoves 1 0 ++ masterMoves 3 0 ++ workerMoves 9 0 ++ masterMoves 3 0

/-- Four problems for two rounds of two workers. -/
def problem3 : Problem := { id := 3, type := 0, size := 16, data := [] }
def problem4 : Problem := { id := 4, type := 0, size := 16, data := [] }

/-- A judge that accepts a result that is not marked failed and carries the id
of the problem it is posted for. -/
def envB : SysEnv :=
  { worker := demoEnv,
    post_result := fun res p =>
      if res.failed = 0 ∧ p.map (fun q => q.id) = some res.id then 0 else 1 }

/-- Two workers (process ids 100 and 101) and four problems. -/
def sysB : Sys := Sys.init [100, 101] [problem1, problem2, problem3, problem4]

/-- Round one: both workers start and stop and are seen; worker 0 gets
`problem1`, worker 1 gets `problem2`; worker 0 finishes first, its result is
accepted, so the master cancels worker 1, which is inside the solver; worker 1
runs on to its stop (the solver returns, the result is written); the master
sees the stop and is back at the start of an assignment phase. -/
def roundOne : List Choice :=
  workerMoves 1 0 ++ workerMoves 1 1 ++ [Choice.master 0, Choice.master 1]
    ++ masterMoves 4 0 ++ workerMoves 9 0 ++ workerMoves 4 1
    ++ masterMoves 3 0 ++ workerMoves 5 1 ++ masterMoves 1 0

/-- Round two: worker 0 gets `problem3`, worker 1 gets `problem4`; worker 1
solves it, writes its result and stops; the master sees the stop of worker 1
and reads a result from its pipe. -/
def roundTwo : List Choice :=
  masterMoves 4 0 ++ workerMoves 11 1 ++ masterMoves 2 1

/-- Whether the master has called `exit`. -/
def MPc.isExited : MPc → Bool
  | MPc.exited _ => true
  | _ => false

/-- Schedules that between them lead to every state scenario A can get into:
the beginnings of `scheduleA`, and the two in which the worker takes its first
steps before the master's `waitpid` for the continuation has returned. -/
def schedulesA : List (List Choice) :=
  (List.range 17).map (fun n => scheduleA.take n)
    ++ [workerMoves 1 0 ++ masterMoves 2 0 ++ workerMoves 1 0,
        workerMoves 1 0 ++ masterMoves 2 0 ++ workerMoves 2 0]

/-- The states these schedules lead to. -/
def reachA : List Sys := schedulesA.filterMap (fun sched => sysA.run envA sched)

/-- In a state of scenario A: at most one problem was given out so far,
variant 2 has not been asked for, and the master has not exited. -/
def variantTwoPending (s : Sys) : Bool :=
  decide ((s.events.filter Event.isGive).length ≤ 1) && decide (variant2 ∈ s.gens)
    && !s.master.pc.isExited

/-- Round one with the cancellation a little later than in `roundOne`: worker 1
has already written its result (line 116) and is about to execute line 126
when the master, having accepted the result of worker 0, sends it `SIGHUP`;
worker 1 then executes lines 126, 131 and 134. -/
def raceRound : List Choice :=
  workerMoves 1 0 ++ workerMoves 1 1 ++ [Choice.master 0, Choice.master 1]
    ++ masterMoves 4 0 ++ workerMoves 9 0 ++ workerMoves 7 1
    ++ masterMoves 3 0 ++ workerMoves 3 1

/-! ## Theorems, part 1: framing -/

theorem uninit_length (junk : Nat → Nat) (n : Nat) : (uninit junk n).length = n := by
  simp [uninit]

theorem readInto_length_ge (buf : List Nat) (r : Option (List Nat)) :
    buf.length ≤ (readInto buf r).length := by
  cases r with
  | none => simp [readInto]
  | some bs => simp [readInto]; omega

/-- The copy loop below the `int` limit copies `src[count .. count + r)` over `dst`. -/
theorem copyLoop_eq (src : List Nat) : ∀ (r count : Nat) (dst : List Nat),
    count + r ≤ INT_MAX → dst.length = count + r → count + r ≤ src.length →
    copyLoop src r count dst = some (dst.take count ++ (src.drop count).take r) := by
  intro r
  induction r with
  | zero =>
    intro count dst _ hd _
    have hle : dst.length ≤ count := by omega
    simp [copyLoop, List.take_of_length_le hle]
  | succ r ih =>
    intro count dst hi hd hs
    have hlt : ¬ INT_MAX < count + 1 := by omega
    have hc : count < src.length := by omega
    have hcd : count < dst.length := by omega
    rw [copyLoop, if_neg hlt, ih (count + 1) _ (by omega) (by simp; omega) (by omega)]
    congr 1
    rw [List.set_eq_take_append_cons_drop, if_pos hcd]
    have h1 : (List.take count dst).length = count := by simp; omega
    rw [List.take_append_eq_append_take, h1]
    simp only [Nat.add_sub_cancel_left]
    rw [List.take_of_length_le (by omega : (List.take count dst).length ≤ count + 1)]
    have h2 : List.drop count src = src[count] :: List.drop (count + 1) src :=
      List.drop_eq_getElem_cons hc
    have h3 : src.getD count 0 = src[count] := by
      simp [List.getD_eq_getElem?_getD, List.getElem?_eq_getElem hc]
    rw [h3]
    rw [h2, List.take_succ_cons, List.take_succ_cons, List.take_zero, List.append_assoc]
    rfl

/-- From the start of a buffer the copy loop yields the first `n` bytes of the source. -/
theorem copyLoop_start (src dst : List Nat) (n : Nat) (hi : n ≤ INT_MAX)
    (hd : dst.length = n) (hs : n ≤ src.length) :
    copyLoop src n 0 dst = some (src.take n) := by
  have h := copyLoop_eq src n 0 dst (by omega) (by omega) (by omega)
  simpa using h

/-- The two decoders are the same computation (the test `dataLength < 0` of the
worker never holds for an unsigned length). -/
theorem readProblem_eq_getResult (L : Layout) (junkH junkM junkD : Nat → Nat) (fd : Chan) :
    readProblem L junkH junkM junkD fd = getResult L junkH junkM junkD fd := by
  simp [readProblem, getResult]

theorem readInto_full (junk : Nat → Nat) (bs : List Nat) :
    readInto (uninit junk bs.length) (some bs) = bs := by
  simp [readInto, uninit]

theorem dataLength_eq (H P : Nat) (h64 : H + P < SIZE_MOD) :
    ((H + P) % SIZE_MOD + SIZE_MOD - H) % SIZE_MOD = P := by
  rw [Nat.mod_eq_of_lt h64]
  have : H + P + SIZE_MOD - H = P + SIZE_MOD := by omega
  rw [this, Nat.add_mod_right, Nat.mod_eq_of_lt (by omega)]

/-- A `read` that delivers all `n` bytes it is asked for takes exactly the
first `n` bytes off the pipe; `n` is then within what one call transfers. -/
theorem read_of_delivers (c : Chan) (n : Nat) (h : c.delivers n) :
    (c.read n).1 = some (c.bytes.take n) ∧ (c.read n).2.bytes = c.bytes.drop n
      ∧ n ≤ MAX_RW_COUNT ∧ n ≤ c.bytes.length := by
  unfold Chan.delivers at h
  unfold Chan.read at h ⊢
  cases hs : c.script with
  | nil =>
    rw [hs] at h
    simp only [Option.map_some', Option.some.injEq, List.length_take] at h
    have e : min n MAX_RW_COUNT = n := by omega
    show some (List.take (min n MAX_RW_COUNT) c.bytes) = some (List.take n c.bytes)
      ∧ List.drop (min n MAX_RW_COUNT) c.bytes = List.drop n c.bytes
      ∧ n ≤ MAX_RW_COUNT ∧ n ≤ c.bytes.length
    rw [e]
    exact ⟨rfl, rfl, by omega, by omega⟩
  | cons x s =>
    rw [hs] at h
    cases x with
    | none => simp at h
    | some k =>
      simp only [Option.map_some', Option.some.injEq, List.length_take] at h
      have e : min (min k n) MAX_RW_COUNT = n := by omega
      show some (List.take (min (min k n) MAX_RW_COUNT) c.bytes) = some (List.take n c.bytes)
        ∧ List.drop (min (min k n) MAX_RW_COUNT) c.bytes = List.drop n c.bytes
        ∧ n ≤ MAX_RW_COUNT ∧ n ≤ c.bytes.length
      rw [e]
      exact ⟨rfl, rfl, by omega, by omega⟩

/-- What `getResult` returns on a pipe that holds a well-formed message
followed by `rest`, when both reads deliver all they are asked for. -/
theorem getResult_image (L : Layout) (m : Msg) (rest : List Nat) (c : Chan)
    (junkH junkM junkD : Nat → Nat)
    (hb : c.bytes = m.image ++ rest)
    (hh : m.hdr.length = L.headerSize)
    (hs : L.sizeField m.hdr = L.headerSize + m.data.length)
    (hd1 : c.delivers L.headerSize)
    (hd2 : (c.read L.headerSize).2.delivers m.data.length) :
    (getResult L junkH junkM junkD c).1 = Outcome.msg m
      ∧ (getResult L junkH junkM junkD c).2.bytes = rest := by
  obtain ⟨hr1, hr1b, hH, _⟩ := read_of_delivers c _ hd1
  obtain ⟨hr2, hr2b, hP, _⟩ := read_of_delivers _ _ hd2
  have htake : c.bytes.take L.headerSize = m.hdr := by
    rw [hb, Msg.image, ← hh, List.append_assoc, List.take_left]
  have hdrop : c.bytes.drop L.headerSize = m.data ++ rest := by
    rw [hb, Msg.image, ← hh, List.append_assoc, List.drop_left]
  rw [htake] at hr1
  rw [hdrop] at hr1b
  rw [hr1b, List.take_left] at hr2
  rw [hr1b, List.drop_left] at hr2b
  have h64 : L.headerSize + m.data.length < SIZE_MOD := by
    have : MAX_RW_COUNT + MAX_RW_COUNT < SIZE_MOD := by decide
    omega
  have hint : m.data.length ≤ INT_MAX := by
    have : MAX_RW_COUNT ≤ INT_MAX := by decide
    omega
  have hhdr : readInto (uninit junkH L.headerSize) (some m.hdr) = m.hdr := by
    rw [← hh]; exact readInto_full junkH m.hdr
  have hsz : L.sizeField m.hdr % SIZE_MOD = L.headerSize + m.data.length := by
    rw [hs, Nat.mod_eq_of_lt h64]
  have hdl2 : (L.headerSize + m.data.length + SIZE_MOD - L.headerSize) % SIZE_MOD
      = m.data.length := by
    have := dataLength_eq L.headerSize m.data.length h64
    rw [Nat.mod_eq_of_lt h64] at this; exact this
  have hcopy : copyLoop m.data m.data.length 0 (uninit junkM m.data.length) = some m.data := by
    rw [copyLoop_start m.data _ m.data.length hint (uninit_length _ _) (Nat.le_refl _)]
    simp
  have key : getResult L junkH junkM junkD c
      = (Outcome.msg m, ((c.read L.headerSize).2.read m.data.length).2) := by
    unfold getResult
    simp only [hr1, hhdr, hsz]
    rw [if_neg (by omega)]
    simp only [hdl2, hr2, readInto_full, hcopy]
  rw [key]
  exact ⟨rfl, hr2b⟩

/-- The bytes `giveProblem` (and likewise the write of line 116) puts on an
empty pipe for a message whose `size` is its length. -/
theorem written_bytes (L : Layout) (m : Msg)
    (hh : m.hdr.length = L.headerSize)
    (hs : L.sizeField m.hdr = L.headerSize + m.data.length)
    (h64 : L.headerSize + m.data.length < SIZE_MOD) :
    (giveProblem L m emptyChan).bytes = m.image
      ∧ (writeResult L m emptyChan).bytes = m.image := by
  have hw : List.take (L.sizeField m.hdr % SIZE_MOD) m.image = m.image := by
    apply List.take_of_length_le
    rw [hs, Nat.mod_eq_of_lt h64]
    simp [Msg.image, hh]
  exact ⟨by simp [giveProblem, Chan.write, emptyChan, hw],
    by simp [writeResult, Chan.write, emptyChan, hw]⟩

/-- C2. Round trip of the framing, for every payload length from 0 on. A
message whose `size` member is the header size plus the length of its payload
is written by `giveProblem` (resp. by the worker, line 116); the pipe holds
these bytes, then `rest`. If the two reads of the worker (resp. of `getResult`)
deliver all the bytes they ask for, whatever the script of the pipe, the
decoder returns the message unchanged: the same header bytes, hence the same
`id`, `type` and `size`, and the same payload, which is empty when `size` is
the header size; exactly the bytes of the message are taken off the pipe. -/
theorem framing_roundtrip (L : Layout) (m : Msg) (rest : List Nat)
    (scriptP scriptR : List (Option Nat)) (junkH junkM junkD : Nat → Nat)
    (hh : m.hdr.length = L.headerSize)
    (hs : L.sizeField m.hdr = L.headerSize + m.data.length)
    (hP1 : Chan.delivers
      { bytes := (giveProblem L m emptyChan).bytes ++ rest, script := scriptP } L.headerSize)
    (hP2 : Chan.delivers
      (Chan.read { bytes := (giveProblem L m emptyChan).bytes ++ rest, script := scriptP }
        L.headerSize).2 m.data.length)
    (hR1 : Chan.delivers
      { bytes := (writeResult L m emptyChan).bytes ++ rest, script := scriptR } L.headerSize)
    (hR2 : Chan.delivers
      (Chan.read { bytes := (writeResult L m emptyChan).bytes ++ rest, script := scriptR }
        L.headerSize).2 m.data.length) :
    ((readProblem L junkH junkM junkD
        { bytes := (giveProblem L m emptyChan).bytes ++ rest, script := scriptP }).1
        = Outcome.msg m
      ∧ (readProblem L junkH junkM junkD
        { bytes := (giveProblem L m emptyChan).bytes ++ rest, script := scriptP }).2.bytes
        = rest)
    ∧ ((getResult L junkH junkM junkD
        { bytes := (writeResult L m emptyChan).bytes ++ rest, script := scriptR }).1
        = Outcome.msg m
      ∧ (getResult L junkH junkM junkD
        { bytes := (writeResult L m emptyChan).bytes ++ rest, script := scriptR }).2.bytes
        = rest) := by
  have hH := (read_of_delivers _ _ hP1).2.2.1
  have hPl := (read_of_delivers _ _ hP2).2.2.1
  have h64 : L.headerSize + m.data.length < SIZE_MOD := by
    have : MAX_RW_COUNT + MAX_RW_COUNT < SIZE_MOD := by decide
    omega
  obtain ⟨hg, hw⟩ := written_bytes L m hh hs h64
  rw [readProblem_eq_getResult]
  rw [hg] at hP1 hP2 ⊢
  rw [hw] at hR1 hR2 ⊢
  exact ⟨getResult_image L m rest _ junkH junkM junkD rfl hh hs hP1 hP2,
    getResult_image L m rest _ junkH junkM junkD rfl hh hs hR1 hR2⟩

/-- Instance of the round trip at an empty payload (a message of header size)
and at a payload of three bytes followed by another byte in the pipe, the
latter over a pipe whose script limits the reads to 16 and to 3 bytes. -/
theorem framing_roundtrip_witness :
    ((emptyMsg.hdr.length = layout16.headerSize
      ∧ layout16.sizeField emptyMsg.hdr = layout16.headerSize + emptyMsg.data.length
      ∧ emptyMsg.data = [])
    ∧ ((readProblem layout16 (fun _ => 0) (fun _ => 0) (fun _ => 0)
        { bytes := (giveProblem layout16 emptyMsg emptyChan).bytes ++ [], script := [] }).1
        = Outcome.msg emptyMsg
      ∧ (readProblem layout16 (fun _ => 0) (fun _ => 0) (fun _ => 0)
        { bytes := (giveProblem layout16 emptyMsg emptyChan).bytes ++ [], script := [] }).2.bytes
        = [])
    ∧ ((getResult layout16 (fun _ => 0) (fun _ => 0) (fun _ => 0)
        { bytes := (writeResult layout16 emptyMsg emptyChan).bytes ++ [], script := [] }).1
        = Outcome.msg emptyMsg
      ∧ (getResult layout16 (fun _ => 0) (fun _ => 0) (fun _ => 0)
        { bytes := (writeResult layout16 emptyMsg emptyChan).bytes ++ [], script := [] }).2.bytes
        = []))
    ∧ ((smallMsg.hdr.length = layout16.headerSize
      ∧ layout16.sizeField smallMsg.hdr = layout16.headerSize + smallMsg.data.length
      ∧ Chan.delivers { bytes := (giveProblem layout16 smallMsg emptyChan).bytes ++ [9],
                        script := [some 16, some 3] } layout16.headerSize)
    ∧ ((readProblem layout16 (fun _ => 0) (fun _ => 0) (fun _ => 0)
        { bytes := (giveProblem layout16 smallMsg emptyChan).bytes ++ [9],
          script := [some 16, some 3] }).1
        = Outcome.msg smallMsg
      ∧ (readProblem layout16 (fun _ => 0) (fun _ => 0) (fun _ => 0)
        { bytes := (giveProblem layout16 smallMsg emptyChan).bytes ++ [9],
          script := [some 16, some 3] }).2.bytes
        = [9])
    ∧ ((getResult layout16 (fun _ => 0) (fun _ => 0) (fun _ => 0)
        { bytes := (writeResult layout16 smallMsg emptyChan).bytes ++ [9], script := [] }).1
        = Outcome.msg smallMsg
      ∧ (getResult layout16 (fun _ => 0) (fun _ => 0) (fun _ => 0)
        { bytes := (writeResult layout16 smallMsg emptyChan).bytes ++ [9], script := [] }).2.bytes
        = [9])) :=
  ⟨⟨⟨by decide, by decide, by decide⟩,
    framing_roundtrip layout16 emptyMsg [] [] [] (fun _ => 0) (fun _ => 0) (fun _ => 0)
      (by decide) (by decide) (by decide) (by decide) (by decide) (by decide)⟩,
   ⟨⟨by decide, by decide, by decide⟩,
    framing_roundtrip layout16 smallMsg [9] [some 16, some 3] [] (fun _ => 0) (fun _ => 0)
      (fun _ => 0) (by decide) (by decide) (by decide) (by decide) (by decide) (by decide)⟩⟩

/-- C9 (amended). Whatever the two calls of `read` return (-1, fewer bytes
than asked for, or all of them), the decoders go on with what the buffers hold: if the `size` found in the header buffer is at least the header
size and the payload length fits the `int` counter, a message is returned, made
of the header buffer after the first read and the payload buffer after the second. -/
theorem decoders_ignore_read_results (L : Layout) (junkH junkM junkD : Nat → Nat) (fd : Chan)
    (hsz : L.headerSize ≤ L.sizeField (headerBuffer L junkH fd) % SIZE_MOD)
    (hint : payloadLength L junkH fd ≤ INT_MAX) :
    (getResult L junkH junkM junkD fd).1
      = Outcome.msg { hdr := headerBuffer L junkH fd, data := payloadBuffer L junkH junkD fd }
    ∧ (readProblem L junkH junkM junkD fd).1
      = Outcome.msg { hdr := headerBuffer L junkH fd, data := payloadBuffer L junkH junkD fd } := by
  have key : (getResult L junkH junkM junkD fd).1
      = Outcome.msg { hdr := headerBuffer L junkH fd,
                      data := payloadBuffer L junkH junkD fd } := by
    unfold payloadBuffer
    unfold payloadLength at hint ⊢
    unfold headerBuffer at hsz hint ⊢
    unfold getResult
    simp only []
    generalize readInto (uninit junkH L.headerSize) (fd.read L.headerSize).1 = hdr at hsz hint ⊢
    have hlt : L.sizeField hdr % SIZE_MOD < SIZE_MOD := Nat.mod_lt _ (by decide)
    have hdl : (L.sizeField hdr % SIZE_MOD + SIZE_MOD - L.headerSize) % SIZE_MOD
        = L.sizeField hdr % SIZE_MOD - L.headerSize := by
      have : L.sizeField hdr % SIZE_MOD + SIZE_MOD - L.headerSize
          = (L.sizeField hdr % SIZE_MOD - L.headerSize) + SIZE_MOD := by omega
      rw [this, Nat.add_mod_right, Nat.mod_eq_of_lt (by omega)]
    rw [if_neg (by omega)]
    simp only [hdl]
    rw [copyLoop_start _ _ _ hint (uninit_length _ _)
      (le_trans (le_of_eq (uninit_length junkD _).symm) (readInto_length_ge _ _))]
  rw [readProblem_eq_getResult]
  exact ⟨key, key⟩

/-- Instance: a pipe that delivers one of the three payload bytes. -/
theorem decoders_ignore_read_results_witness :
    (layout16.headerSize ≤ layout16.sizeField (headerBuffer layout16 (fun _ => 0) shortChan)
        % SIZE_MOD
      ∧ payloadLength layout16 (fun _ => 0) shortChan ≤ INT_MAX)
    ∧ ((getResult layout16 (fun _ => 0) (fun _ => 0) (fun _ => 5) shortChan).1
        = Outcome.msg { hdr := headerBuffer layout16 (fun _ => 0) shortChan,
                        data := payloadBuffer layout16 (fun _ => 0) (fun _ => 5) shortChan }
      ∧ (readProblem layout16 (fun _ => 0) (fun _ => 0) (fun _ => 5) shortChan).1
        = Outcome.msg { hdr := headerBuffer layout16 (fun _ => 0) shortChan,
                        data := payloadBuffer layout16 (fun _ => 0) (fun _ => 5) shortChan }) :=
  ⟨⟨by decide, by decide⟩,
    decoders_ignore_read_results layout16 (fun _ => 0) (fun _ => 0) (fun _ => 5) shortChan
      (by decide) (by decide)⟩

/-- C9 (as stated) fails: a failed header read in `getResult` and a short
payload read in the worker both end with a message handed on, not with an error: after `read` returned -1
the header is the uninitialised buffer, and after the short read the payload is
one byte that arrived and two bytes of the uninitialised buffer. -/
theorem decoders_return_message_after_fault :
    (failingChan.read layout16.headerSize).1 = none
    ∧ (getResult layout16 junk16 (fun _ => 0) (fun _ => 0) failingChan).1
        = Outcome.msg { hdr := [16, 0, 0, 0, 0, 0, 0, 0, 0, 0, 0, 0, 0, 0, 0, 0], data := [] }
    ∧ ((shortChan.read layout16.headerSize).2.read 3).1 = some [1]
    ∧ (readProblem layout16 (fun _ => 0) (fun _ => 0) (fun _ => 5) shortChan).1
        = Outcome.msg { hdr := smallMsg.hdr, data := [1, 5, 5] } := by
  decide
/-! ## Theorems, part 2: the worker -/

/-- The hang-up handler never touches the flag the solver was given. -/
theorem sighup_keeps_solverFlag (w : WorkerSt) :
    solverFlag (deliver Signal.SIGHUP w) = solverFlag w := by
  unfold deliver
  cases w.status <;> rfl

/-- C7. A worker inside the solver for `problem1` receives the hang-up signal:
the handler sets `cancel`, the flag the solver polls (`canceledP`) stays 0, and
the solver, which would give up on a set flag, returns its full result. For
every worker state the hang-up signal leaves the flag of the solver as it was. -/
theorem cancel_request_not_seen_by_solver :
    (WorkerSt.init.run demoEnv toSolving).map (fun w => (w.pc, w.status))
      = some (WPc.solving, Status.running)
    ∧ (WorkerSt.init.run demoEnv (toSolving ++ [WAction.sig Signal.SIGHUP])).map
        (fun w => (w.cancel, solverFlag w)) = some (1, 0)
    ∧ (WorkerSt.init.run demoEnv (toSolving ++ [WAction.sig Signal.SIGHUP, WAction.step])).map
        (fun w => w.res) = some (some { id := 1, failed := 0, size := 17, data := [42] })
    ∧ pollingSolver problem1 1 = none
    ∧ ∀ w : WorkerSt, solverFlag (deliver Signal.SIGHUP w) = solverFlag w := by
  refine ⟨by decide, by decide, by decide, by decide, sighup_keeps_solverFlag⟩

/-- C3. Runs of the worker that break the one-outcome rule.
(1) The hang-up signal arrives after the result was written and before line
126, and once more later: the worker writes the solver's result and a failed
result for the same problem before it stops.
(2) With one such signal only, the worker neither stops nor writes again: after
three more steps it is back in the same state, running, so it loops for ever.
(3) Run (2) with the master of part 3 as the sender: two workers, the result
of worker 0 is accepted and the master's `SIGHUP` reaches worker 1 right after
its write; the master then waits in `waitpid(pid, NULL, WUNTRACED)` for a stop
of worker 1 that never comes, while worker 1 loops. -/
theorem worker_breaks_one_outcome :
    (WorkerSt.init.run demoEnv lateCancelTwice).map (fun w => w.log)
      = some [WEvent.stop, WEvent.got problem1,
              WEvent.put { id := 1, failed := 0, size := 17, data := [42] },
              WEvent.put { id := 1, failed := 1, size := 16, data := [] },
              WEvent.stop]
    ∧ (WorkerSt.init.run demoEnv lateCancelTwice).map (fun w => oneOutcome none w.log)
      = some false
    ∧ (WorkerSt.init.run demoEnv lateCancelOnce).map (fun w => (w.status, w.log))
      = some (Status.running, [WEvent.stop, WEvent.got problem1,
              WEvent.put { id := 1, failed := 0, size := 17, data := [42] }])
    ∧ (WorkerSt.init.run demoEnv lateCancelOnce).bind (fun w => w.run demoEnv (steps 3))
      = WorkerSt.init.run demoEnv lateCancelOnce
    ∧ (sysB.run envB raceRound).map (fun s => (s.master.pc, s.procs.map (fun q => q.w.status)))
      = some (MPc.cancelWait 1, [Status.stopped, Status.running])
    ∧ (sysB.run envB raceRound).bind (fun s => s.step envB (Choice.master 0)) = none
    ∧ (sysB.run envB raceRound).bind (fun s => s.run envB (workerMoves 3 1))
      = sysB.run envB raceRound := by
  refine ⟨by decide, by decide, by decide, by decide, by decide, by decide, by decide⟩
/-! ## Theorems, part 3: the master -/

theorem length_setState (arr : List Worker) (i : Nat) (s : WorkerState) :
    (setState arr i s).length = arr.length := by
  induction arr generalizing i with
  | nil => simp [setState]
  | cons w ws ih => cases i <;> simp [setState, ih]

theorem length_setProblem (arr : List Worker) (i : Nat) (p : Problem) :
    (setProblem arr i p).length = arr.length := by
  induction arr generalizing i with
  | nil => simp [setProblem]
  | cons w ws ih => cases i <;> simp [setProblem, ih]

theorem length_markPid (arr : List Worker) (wpid : Int) (s : WorkerState) :
    (markPid arr wpid s).length = arr.length := by
  simp [markPid]

theorem getElem?_setState (arr : List Worker) (i j : Nat) (s : WorkerState) :
    (setState arr i s)[j]? =
      if j = i then arr[j]?.map (fun w => { w with state := s }) else arr[j]? := by
  induction arr generalizing i j with
  | nil => simp [setState]
  | cons w ws ih =>
    cases i with
    | zero => cases j <;> simp [setState]
    | succ i => cases j <;> simp [setState, ih]

theorem getElem?_setProblem (arr : List Worker) (i j : Nat) (p : Problem) :
    (setProblem arr i p)[j]? =
      if j = i then arr[j]?.map (fun w => { w with problemToSolve := some p }) else arr[j]? := by
  induction arr generalizing i j with
  | nil => simp [setProblem]
  | cons w ws ih =>
    cases i with
    | zero => cases j <;> simp [setProblem]
    | succ i => cases j <;> simp [setProblem, ih]

/-- Where the scan for a worker that is not idle ends. -/
theorem nextNotIdle_none (ws : List Worker) (i : Nat) (h : nextNotIdle ws i = none) :
    ∀ (d : Nat) (w : Worker), ws[d]? = some w → w.state = WORKER_IDLE := by
  induction ws generalizing i with
  | nil => intro d w hw; simp at hw
  | cons x xs ih =>
    intro d w hw
    unfold nextNotIdle at h
    by_cases hx : x.state ≠ WORKER_IDLE
    · rw [if_pos hx] at h; cases h
    · rw [if_neg hx] at h
      cases d with
      | zero =>
        simp at hw; subst hw
        exact not_not.mp hx
      | succ d =>
        simp at hw
        exact ih (i + 1) h d w hw

theorem nextNotIdle_some (ws : List Worker) (i k : Nat) (h : nextNotIdle ws i = some k) :
    ∃ d, k = i + d ∧ d < ws.length ∧
      ∀ (e : Nat) (w : Worker), e < d → ws[e]? = some w → w.state = WORKER_IDLE := by
  induction ws generalizing i with
  | nil => simp [nextNotIdle] at h
  | cons x xs ih =>
    unfold nextNotIdle at h
    by_cases hx : x.state ≠ WORKER_IDLE
    · rw [if_pos hx] at h
      refine ⟨0, ?_, by simp, ?_⟩
      · cases h; rfl
      · intro e w he; omega
    · rw [if_neg hx] at h
      obtain ⟨d, hk, hd, hall⟩ := ih (i + 1) h
      refine ⟨d + 1, by omega, by simp; omega, ?_⟩
      intro e w he hw
      cases e with
      | zero =>
        simp at hw; subst hw
        exact not_not.mp hx
      | succ e =>
        simp at hw
        exact hall e w (by omega) hw

theorem assignFrom_inv (n : Nat) (m : Master) (i variant : Nat) (hlen : m.arr.length = n)
    (hidle : idleFrom m.arr i) : MasterInv n (m.assignFrom i variant).1 := by
  unfold Master.assignFrom
  by_cases h : i < m.arr.length
  · rw [if_pos h]
    exact ⟨hlen, by omega, hidle⟩
  · rw [if_neg h]
    exact ⟨hlen, trivial⟩

theorem shutdown_inv (n : Nat) (m : Master) (hlen : m.arr.length = n) :
    MasterInv n m.shutdown.1 := by
  unfold Master.shutdown
  by_cases h : 0 < m.arr.length
  · simp only [if_pos h]; exact ⟨hlen, trivial⟩
  · simp only [if_neg h]; exact ⟨hlen, trivial⟩

theorem cancelFrom_inv (n : Nat) (m : Master) (i : Nat) (hlen : m.arr.length = n)
    (hidle : idleBelow m.arr i) : MasterInv n (m.cancelFrom i).1 := by
  unfold Master.cancelFrom
  cases h : nextNotIdle (m.arr.drop i) i with
  | none =>
    simp only []
    apply assignFrom_inv n m 0 0 hlen
    intro j w _ hw
    by_cases hj : j < i
    · exact hidle j w hj hw
    · have := nextNotIdle_none _ _ h (j - i) w
      rw [List.getElem?_drop] at this
      have e : i + (j - i) = j := by omega
      rw [e] at this
      exact this hw
  | some k =>
    simp only []
    obtain ⟨d, hk, _, hall⟩ := nextNotIdle_some _ _ _ h
    refine ⟨by simp [length_setState, hlen], ?_⟩
    show idleBelow (setState m.arr k WORKER_STOPPED) k
    intro j w hj hw
    rw [getElem?_setState, if_neg (by omega)] at hw
    by_cases hji : j < i
    · exact hidle j w hji hw
    · have := hall (j - i) w (by omega)
      rw [List.getElem?_drop] at this
      have e : i + (j - i) = j := by omega
      rw [e] at this
      exact this hw

/-- Every step of the master keeps `MasterInv`. -/
theorem step_inv (n : Nat) (m : Master) (r : Resp) (h : MasterInv n m) :
    MasterInv n (m.step r).1 := by
  obtain ⟨arr, pc⟩ := m
  obtain ⟨hlen, hpc⟩ := h
  simp only [] at hlen hpc
  cases pc with
  | initWait k => exact absurd hpc id
  | getVariant i v =>
    cases r with
    | variant p =>
      cases p with
      | none => exact shutdown_inv n _ hlen
      | some p =>
        refine ⟨by simp [Master.step, length_setState, hlen], ?_⟩
        show idleFrom (setState arr i WORKER_CONTINUED) (i + 1)
        intro j w hj hw
        rw [getElem?_setState, if_neg (by omega)] at hw
        exact hpc.2 j w (by omega) hw
    | _ => exact ⟨hlen, hpc⟩
  | waitCont i v p =>
    cases r with
    | pid wpid =>
      apply assignFrom_inv
      · simp [length_setProblem, length_setState, hlen]
      · intro j w hj hw
        simp only [] at hw
        rw [getElem?_setProblem, if_neg (by omega), getElem?_setState, if_neg (by omega)] at hw
        exact hpc j w hj hw
    | _ => exact ⟨hlen, hpc⟩
  | arbWait =>
    cases r with
    | pid wpid =>
      simp only [Master.step]
      cases findWorkerFrom arr wpid 0 none with
      | none => exact ⟨hlen, trivial⟩
      | some k => exact ⟨by simp [length_setState, hlen], trivial⟩
    | _ => exact ⟨hlen, trivial⟩
  | arbRead k =>
    cases r with
    | result res => exact ⟨hlen, trivial⟩
    | _ => exact ⟨hlen, trivial⟩
  | arbJudge k res =>
    cases r with
    | verdict v =>
      simp only [Master.step]
      by_cases hv : v = 0
      · rw [if_pos hv]
        exact cancelFrom_inv n _ 0 hlen (fun j w hj _ => absurd hj (by omega))
      · rw [if_neg hv]
        exact ⟨hlen, trivial⟩
    | _ => exact ⟨hlen, trivial⟩
  | cancelWait i =>
    cases r with
    | pid wpid =>
      apply cancelFrom_inv
      · simp [length_setState, hlen]
      · intro j w hj hw
        simp only [] at hw
        rw [getElem?_setState] at hw
        by_cases hji : j = i
        · rw [if_pos hji] at hw
          cases hx : arr[j]? with
          | none => rw [hx] at hw; simp at hw
          | some x => rw [hx] at hw; simp at hw; rw [← hw]
        · rw [if_neg hji] at hw
          exact hpc j w (by omega) hw
    | _ => exact ⟨hlen, hpc⟩
  | reap i =>
    cases r with
    | child wpid st =>
      simp only [Master.step]
      split
      · exact ⟨by simp [length_markPid, hlen], trivial⟩
      · split
        · exact ⟨by simp [length_markPid, hlen], trivial⟩
        · exact ⟨by simp [length_markPid, hlen], trivial⟩
    | _ => exact ⟨hlen, trivial⟩
  | exited c => cases r <;> exact ⟨hlen, trivial⟩
  | fault => cases r <;> exact ⟨hlen, trivial⟩

theorem run_inv (n : Nat) (rs : List Resp) : ∀ (me : Master × List Event),
    MasterInv n me.1 → MasterInv n (Master.run me rs).1 := by
  induction rs with
  | nil => intro me h; exact h
  | cons r rs ih =>
    intro me h
    rw [Master.run]
    exact ih _ (step_inv n me.1 r h)

theorem run_append (a b : List Resp) : ∀ (me : Master × List Event),
    Master.run me (a ++ b) = Master.run (Master.run me a) b := by
  induction a with
  | nil => intro me; rfl
  | cons r a ih => intro me; simp only [List.cons_append, Master.run]; exact ih _

/-- The start-up loop (lines 121-133) over the reports of `waitpid`: every
worker whose process id was reported is marked idle, then the rounds begin. -/
theorem init_run (reports : List Int) : ∀ (arr : List Worker) (k : Nat) (evs : List Event),
    reports ≠ [] → k + reports.length = arr.length →
    (Master.run ({ arr := arr, pc := MPc.initWait k }, evs) (reports.map Resp.pid)).1
      = (({ arr := reports.foldl (fun a p => markPid a p WORKER_IDLE) arr,
            pc := MPc.initWait k } : Master).assignFrom 0 0).1 := by
  induction reports with
  | nil => intro arr k evs h; exact absurd rfl h
  | cons p rest ih =>
    intro arr k evs _ hlen
    simp only [List.map_cons, Master.run, Master.step]
    cases rest with
    | nil =>
      have hk : ¬ k + 1 < arr.length := by simp at hlen; omega
      simp only [if_neg hk, List.map_nil, Master.run, List.foldl_cons, List.foldl_nil]
    | cons q rest2 =>
      have hk : k + 1 < arr.length := by simp at hlen; omega
      simp only [if_pos hk]
      have := ih (markPid arr p WORKER_IDLE) (k + 1)
        (evs ++ markEvents arr p WORKER_STARTED WORKER_IDLE) (by simp)
        (by simp [length_markPid] at hlen ⊢; omega)
      rw [this]
      rfl

theorem foldl_markPid (reports : List Int) : ∀ (arr : List Worker),
    reports.foldl (fun a p => markPid a p WORKER_IDLE) arr
      = arr.map (fun w => if w.pid ∈ reports then { w with state := WORKER_IDLE } else w) := by
  induction reports with
  | nil => intro arr; simp
  | cons p rest ih =>
    intro arr
    rw [List.foldl_cons, ih, markPid, List.map_map]
    apply List.map_congr_left
    intro w _
    by_cases h1 : w.pid = p
    · simp [h1]
    · by_cases h2 : w.pid ∈ rest
      · simp [h1, h2]
      · simp [h1, h2]

theorem startArr_pid (pids : List Int) : ∀ (i : Nat) (w : Worker),
    w ∈ startArr pids i → w.pid ∈ pids := by
  induction pids with
  | nil => intro i w h; simp [startArr] at h
  | cons p ps ih =>
    intro i w h
    simp only [startArr, List.mem_cons] at h
    rcases h with h | h
    · subst h; simp
    · exact List.mem_cons_of_mem _ (ih _ w h)

theorem startArr_length (pids : List Int) : ∀ (i : Nat), (startArr pids i).length = pids.length := by
  induction pids with
  | nil => intro i; rfl
  | cons p ps ih => intro i; simp [startArr, ih]

/-- After the start-up loop has had each worker reported, `MasterInv` holds. -/
theorem init_inv (pids reports : List Int) (hperm : reports.Perm pids) :
    MasterInv pids.length (Master.run (Master.start pids) (reports.map Resp.pid)).1 := by
  cases pids with
  | nil =>
    have : reports = [] := List.Perm.eq_nil hperm
    subst this
    exact ⟨rfl, trivial⟩
  | cons p ps =>
    have hne : reports ≠ [] := by
      intro h; subst h
      exact List.cons_ne_nil _ _ (List.Perm.nil_eq hperm).symm
    have hlen : reports.length = (p :: ps).length := hperm.length_eq
    have hstart : Master.start (p :: ps)
        = ({ arr := startArr (p :: ps) 0, pc := MPc.initWait 0 }, [Event.sf_start]) := by
      simp [Master.start]
    rw [hstart, init_run reports _ 0 _ hne (by rw [startArr_length]; omega)]
    apply assignFrom_inv
    · simp only []
      rw [foldl_markPid, List.length_map, startArr_length]
    · intro j w _ hw
      simp only [] at hw
      rw [foldl_markPid, List.getElem?_map] at hw
      cases hx : (startArr (p :: ps) 0)[j]? with
      | none => rw [hx] at hw; simp at hw
      | some x =>
        rw [hx] at hw
        have hmem : x.pid ∈ reports :=
          hperm.symm.subset (startArr_pid _ 0 x (List.getElem?_mem hx))
        simp [hmem] at hw
        rw [← hw]

/-- C1. Whenever `master()` is about to ask for the variant of worker `i` (the
call that, if it yields a problem, is followed by `SIGCONT` and the problem for
worker `i`), worker `i` and all workers after it are recorded as `WORKER_IDLE`:
in the first round, given that the start-up loop had every worker reported
once, and in every later round, after arbitration and cancellation. With
`i = 0` this is the start of an assignment phase: all workers are idle. -/
theorem assignment_finds_worker_idle (pids reports : List Int) (hperm : reports.Perm pids)
    (rs : List Resp) (i variant : Nat)
    (hpc : (Master.run (Master.start pids) (reports.map Resp.pid ++ rs)).1.pc
      = MPc.getVariant i variant) :
    i < pids.length ∧ ∀ j, i ≤ j → j < pids.length →
      (Master.run (Master.start pids) (reports.map Resp.pid ++ rs)).1.states[j]?
        = some WORKER_IDLE := by
  have hinv : MasterInv pids.length
      (Master.run (Master.start pids) (reports.map Resp.pid ++ rs)).1 := by
    rw [run_append]
    exact run_inv _ rs _ (init_inv pids reports hperm)
  obtain ⟨hlen, h⟩ := hinv
  rw [hpc] at h
  refine ⟨h.1, ?_⟩
  intro j hij hj
  have hj2 : j < (Master.run (Master.start pids) (reports.map Resp.pid ++ rs)).1.arr.length := by
    omega
  simp only [Master.states, List.getElem?_map, List.getElem?_eq_getElem hj2, Option.map_some']
  congr 1
  exact h.2 j _ hij (List.getElem?_eq_getElem hj2)

/-- Instance of C1: two workers, the second about to be assigned in round one. -/
theorem assignment_finds_worker_idle_witness :
    (Master.run (Master.start [100, 101])
        ([101, 100].map Resp.pid ++ [Resp.variant (some problem1), Resp.pid 100])).1.pc
      = MPc.getVariant 1 1
    ∧ (1 < [(100 : Int), 101].length ∧ ∀ j, 1 ≤ j → j < [(100 : Int), 101].length →
      (Master.run (Master.start [100, 101])
        ([101, 100].map Resp.pid ++ [Resp.variant (some problem1), Resp.pid 100])).1.states[j]?
        = some WORKER_IDLE) :=
  ⟨by decide, assignment_finds_worker_idle [100, 101] [101, 100] (List.Perm.swap 100 101 [])
    [Resp.variant (some problem1), Resp.pid 100] 1 1 (by decide)⟩

/-- C10. Two workers, the problem source hands out one problem and then
reports exhaustion within the same assignment phase: the master starts the
shutdown (it is at the first `wait`) while worker 0 is recorded as
`WORKER_RUNNING`; `problem1` was written to worker 0 and no result was ever
received; and when `wait` reports the exit of worker 0 the master records the
transition as one from `WORKER_IDLE`. -/
theorem shutdown_with_running_worker :
    (Master.run (Master.start [100, 101]) exhaustedMidRound).1.pc = MPc.reap 0
    ∧ (Master.run (Master.start [100, 101]) exhaustedMidRound).1.states
        = [WORKER_RUNNING, WORKER_IDLE]
    ∧ Event.giveProblem 0 problem1 ∈ (Master.run (Master.start [100, 101]) exhaustedMidRound).2
    ∧ (Master.run (Master.start [100, 101]) exhaustedMidRound).2.filter Event.isRecv = []
    ∧ ((Master.run (Master.start [100, 101]) exhaustedMidRound).1.step
          (Resp.child 100 (ChildStatus.exited 0))).2
        = [Event.wait 100 (ChildStatus.exited 0),
           Event.sf_change_state 100 WORKER_IDLE WORKER_EXITED] := by
  decide

/-- C5. Two workers, and the first `wait` reports a worker killed by a signal:
the master exits with `EXIT_FAILURE` after this one `wait`; worker 1 is never
waited for (its state stays `WORKER_IDLE`), and whatever the kernel could
report next is not asked for. -/
theorem shutdown_stops_at_first_unclean_exit :
    (Master.run (Master.start [100, 101]) firstExitUnclean).1.pc = MPc.exited EXIT_FAILURE
    ∧ ((Master.run (Master.start [100, 101]) firstExitUnclean).2.filter Event.isWait).length = 1
    ∧ (Master.run (Master.start [100, 101]) firstExitUnclean).1.states
        = [WORKER_ABORTED, WORKER_IDLE]
    ∧ (Master.run (Master.start [100, 101]) firstExitUnclean).2.getLast? = some (Event.exit 1)
    ∧ Master.run (Master.start [100, 101])
          (firstExitUnclean ++ [Resp.child 101 (ChildStatus.exited 0)])
        = Master.run (Master.start [100, 101]) firstExitUnclean := by
  decide

/-- C6. One worker that terminates normally with exit status 1: the master
records `WORKER_EXITED` and exits with `EXIT_SUCCESS`. -/
theorem nonzero_exit_status_counts_as_clean :
    (Master.run (Master.start [100]) exitCodeOne).1.pc = MPc.exited EXIT_SUCCESS
    ∧ (Master.run (Master.start [100]) exitCodeOne).1.states = [WORKER_EXITED]
    ∧ (Master.run (Master.start [100]) exitCodeOne).2.getLast? = some (Event.exit EXIT_SUCCESS)
    ∧ Event.wait 100 (ChildStatus.exited 1) ∈ (Master.run (Master.start [100]) exitCodeOne).2 := by
  decide
/-! ## Theorems, part 4: master and workers together -/

/-- After a rejected result the master is back at the `waitpid` of the
arbitration loop, whatever the number of workers. -/
theorem rejected_result_waits_again (m : Master) (k : Nat) (res : Result) (v : Int)
    (hpc : m.pc = MPc.arbJudge k res) (hv : v ≠ 0) :
    (m.step (Resp.verdict v)).1.pc = MPc.arbWait := by
  obtain ⟨arr, pc⟩ := m
  simp only [] at hpc
  subst hpc
  simp [Master.step, hv]

/-- A worker that does not run makes no move. -/
theorem worker_move_none (env : SysEnv) (s : Sys) (i : Nat)
    (h : ∀ q ∈ s.procs, q.w.status = Status.stopped) :
    s.step env (Choice.worker i) = none := by
  cases hq : s.procs.get? i with
  | none => simp only [Sys.step, hq]
  | some q =>
    have hst : q.w.status = Status.stopped := h q (List.get?_mem hq)
    have : q.w.step env.worker = none := by
      unfold WorkerSt.step
      rw [if_pos (by rw [hst]; decide)]
    simp only [Sys.step, hq, this]

/-- With the master in `waitpid(-1, NULL, WUNTRACED)` of the arbitration loop,
every worker stopped and every stop already reported, nothing in the system
can move. -/
theorem blocked_of_all_stopped (env : SysEnv) (s : Sys) (hpc : s.master.pc = MPc.arbWait)
    (h : ∀ q ∈ s.procs, q.stopPending = false ∧ q.w.status = Status.stopped) (c : Choice) :
    s.step env c = none := by
  cases c with
  | worker i => exact worker_move_none env s i (fun q hq => (h q hq).2)
  | master k =>
    have hr : s.respond env k = none := by
      cases hq : s.procs.get? k with
      | none => simp only [Sys.respond, hpc, hq]
      | some q =>
        have := (h q (List.get?_mem hq)).1
        simp only [Sys.respond, hpc, hq, this]
        rfl
    simp only [Sys.step, hr]

/-- With one child, a move named for another child is no move or the move
named for child 0. -/
theorem step_single (env : SysEnv) (s : Sys) (h : s.procs.length = 1) (c : Choice) :
    s.step env c = none ∨ s.step env c = s.step env (Choice.master 0)
      ∨ s.step env c = s.step env (Choice.worker 0) := by
  cases c with
  | worker i =>
    cases i with
    | zero => exact Or.inr (Or.inr rfl)
    | succ i =>
      have hn : s.procs.get? (i + 1) = none := List.get?_eq_none.mpr (by omega)
      left
      simp only [Sys.step, hn]
  | master k =>
    cases k with
    | zero => exact Or.inr (Or.inl rfl)
    | succ k =>
      have hn : s.procs[k + 1]? = none := List.getElem?_eq_none (by omega)
      have hr : s.respond env (k + 1) = none ∨ s.respond env (k + 1) = s.respond env 0 := by
        unfold Sys.respond
        cases s.master.pc <;> simp [hn]
      rcases hr with hr | hr
      · left; simp only [Sys.step, hr]
      · right; left; simp only [Sys.step, hr]

/-- The states of `reachA` are closed under the moves of the master and of worker 0. -/
theorem reachA_closed :
    ∀ s ∈ reachA, ∀ c ∈ [Choice.master 0, Choice.worker 0],
      ∀ t ∈ (s.step envA c).toList, t ∈ reachA := by
  decide

theorem reachA_facts :
    ∀ s ∈ reachA, s.procs.length = 1 ∧ variantTwoPending s = true := by
  decide

/-- Every run of scenario A stays within `reachA`. -/
theorem run_in_reachA (sched : List Choice) : ∀ s0 ∈ reachA, ∀ s,
    Sys.run envA s0 sched = some s → s ∈ reachA := by
  induction sched with
  | nil =>
    intro s0 h0 s h
    simp only [Sys.run, Option.some.injEq] at h
    exact h ▸ h0
  | cons c cs ih =>
    intro s0 h0 s h
    rw [Sys.run] at h
    cases hstep : s0.step envA c with
    | none => rw [hstep] at h; cases h
    | some s1 =>
      rw [hstep] at h
      have hmem : s1 ∈ reachA := by
        rcases step_single envA s0 (reachA_facts s0 h0).1 c with h1 | h1 | h1
        · rw [hstep] at h1; cases h1
        · rw [hstep] at h1
          exact reachA_closed s0 h0 (Choice.master 0) (by simp) s1 (by rw [← h1]; simp)
        · rw [hstep] at h1
          exact reachA_closed s0 h0 (Choice.worker 0) (by simp) s1 (by rw [← h1]; simp)
      exact ih s1 hmem s h

/-- C8. Scenario A on the code: one worker, three variants, a judge that
rejects the result for variant 1. The master assigns variant 1, reads its
result and has it rejected; it is then back in `waitpid(-1, NULL, WUNTRACED)`
while the only worker is stopped and its stop has been reported, so no process
can move any more: variants 2 and 3 are never asked for, no second problem is
given out, there is no shutdown. This does not depend on the schedule: in
every state any schedule leads to, at most one problem has been given out,
variant 2 is still with the problem source, and the master has not exited. In
general (any number of workers) a verdict other than 0 sends the master back
to that `waitpid`. -/
theorem scenarioA_master_blocks :
    (sysA.run envA scheduleA).map (fun s => (s.master.pc, s.master.states, s.gens))
      = some (MPc.arbWait, [WORKER_IDLE], [variant2, variant3])
    ∧ (sysA.run envA scheduleA).map
        (fun s => (s.events.filter Event.isGive, s.events.filter Event.isCancel))
      = some ([Event.giveProblem 0 variant1], [])
    ∧ (sysA.run envA scheduleA).map (fun s => s.events.getLast?)
      = some (some (Event.post_result { id := 1, failed := 0, size := 17, data := [42] }
            (some variant1)))
    ∧ envA.post_result { id := 1, failed := 0, size := 17, data := [42] } (some variant1) = 1
    ∧ (∀ c : Choice, (sysA.run envA scheduleA).bind (fun s => s.step envA c) = none)
    ∧ (∀ sched : List Choice, (sysA.run envA sched).all variantTwoPending = true)
    ∧ (∀ (arr : List Worker) (k : Nat) (res : Result) (v : Int),
        v = 0 ∨ (Master.step { arr := arr, pc := MPc.arbJudge k res } (Resp.verdict v)).1.pc
          = MPc.arbWait) := by
  refine ⟨by decide, by decide, by decide, by decide, ?_, ?_, ?_⟩
  rotate_left
  · intro sched
    cases h : sysA.run envA sched with
    | none => rfl
    | some s =>
      exact (reachA_facts s (run_in_reachA sched sysA (by decide) s h)).2
  · intro arr k res v
    by_cases hv : v = 0
    · exact Or.inl hv
    · exact Or.inr (rejected_result_waits_again _ k res v rfl hv)
  intro c
  have h1 : (sysA.run envA scheduleA).map (fun s =>
      decide (s.master.pc = MPc.arbWait) &&
        s.procs.all (fun q => !q.stopPending && decide (q.w.status = Status.stopped)))
      = some true := by decide
  cases h : sysA.run envA scheduleA with
  | none => rfl
  | some s =>
    rw [h] at h1
    simp only [Option.map_some', Option.some.injEq, Bool.and_eq_true, decide_eq_true_eq,
      List.all_eq_true, Bool.not_eq_true'] at h1
    exact blocked_of_all_stopped envA s h1.1 (fun q hq => h1.2 q hq) c

/-- C4. Two workers, two rounds. In round one the result of worker 0 is
accepted while worker 1 is inside the solver; worker 1 is cancelled, writes its
result and stops; the master marks it idle without reading its pipe. When the
next assignment phase begins the pipe of worker 1 still holds that result. In
round two worker 1 is given `problem4`; when it stops, the master reads the
result of round one (id 2) from its pipe and posts it for `problem4` (id 4);
the result worker 1 wrote for `problem4` stays behind in the pipe. -/
theorem stale_result_posted_for_next_problem :
    (sysB.run envB roundOne).map (fun s => (s.master.pc, s.master.states))
      = some (MPc.getVariant 0 0, [WORKER_IDLE, WORKER_IDLE])
    ∧ (sysB.run envB roundOne).map
        (fun s => (s.procs.map (fun q => q.w.stdout), s.events.filter Event.isCancel))
      = some ([[], [{ id := 2, failed := 0, size := 17, data := [42] }]], [Event.sf_cancel 101])
    ∧ (sysB.run envB (roundOne ++ roundTwo)).map (fun s => (s.master.pc, s.events.getLast?))
      = some (MPc.arbJudge 1 { id := 2, failed := 0, size := 17, data := [42] },
          some (Event.post_result { id := 2, failed := 0, size := 17, data := [42] }
            (some problem4)))
    ∧ (sysB.run envB (roundOne ++ roundTwo)).map (fun s => s.procs.map (fun q => q.w.stdout))
      = some [[], [{ id := 4, failed := 0, size := 17, data := [42] }]] := by
  refine ⟨by decide, by decide, by decide, by decide⟩
end Polya
